import Mathlib

/-!
Verification of the node-proxy routing table, request dispatcher, round-robin
load balancer, and configuration validator.

The definitions below are a shallow embedding of the TypeScript source:
  - `ProxyConfig` (getRule, normalizeRule, parseHostConfig) from
    src/lib/proxy-config.ts,
  - `ProxyServer` (handleRequest, getNextTarget, handleProxy, handleRedirect,
    handleRewrite) from src/lib/proxy-server.ts,
  - `ConfigValidator` (validate and its sub-validators) from
    src/lib/config-validator.ts.

Modelling conventions:
  - JavaScript `Map` objects are association lists (`List (key, value)`);
    `Map.get` is `List.lookup` and `Map.set` is `jsSet`, which updates an
    existing entry in place or appends a fresh one, exactly as a JS Map does.
  - JS strings are Lean `String`s; `s.split(c)[0]`, `s.startsWith(p)` and
    `s.substring(n)` are translated through the character list `s.data`.
  - The request-dispatch functions return an `Outcome` describing the
    client-visible effect (upstream forward with a chosen target and URL,
    redirect response, 404, or a thrown Error) together with the updated
    round-robin counter map.  Header construction, body streaming and logging
    are not modelled; they do not affect the routed target, URL, status,
    location, or counters that the theorems below are about.
-/

/-- Round-robin counter map: the `roundRobinCounters : Map<string, number>`
field of `ProxyServer`. -/
abbrev CMap := List (String × Nat)

/-- A normalized rule, from `StandardizedProxyRule | StandardizedRedirectRule |
StandardizedRewriteRule`.  The opaque, unused `health_check` field of proxy
rules is not modelled.  The redirect field `stripPrefix` models the source
field named strip_prefix. -/
inductive Rule where
  | proxy (targets : List String)
  | redirect (to' : String) (stripPrefix : Option String) (status : Nat)
  | rewrite (to' : String)
deriving DecidableEq

/-- Path map of a virtual host: `Map<string, ProxyRule>`. -/
abbrev PathMap := List (String × Rule)

/-- Host map of a port: `Map<string, Map<string, ProxyRule>>`. -/
abbrev HostMap := List (String × PathMap)

/-- The routing table: `ProxyConfigMap = Map<number, Map<string, Map<string,
ProxyRule>>>`. -/
abbrev ConfigMap := List (Nat × HostMap)

/-- JS `Map.set`: replace the value at an existing key, keeping its position,
or append a fresh entry at the end. -/
def jsSet {α : Type} (k : String) (v : α) : List (String × α) → List (String × α)
  | [] => [(k, v)]
  | (k', v') :: rest => if k' = k then (k, v) :: rest else (k', v') :: jsSet k v rest

/-- JS `String.prototype.startsWith` on character lists. -/
def listPrefix : List Char → List Char → Bool
  | [], _ => true
  | _ :: _, [] => false
  | a :: as, b :: bs => a == b && listPrefix as bs

/-- JS `s.startsWith(p)`. -/
def strStartsWith (s p : String) : Bool := listPrefix p.data s.data

/-- JS `s.substring(n)`: drop the first `n` characters. -/
def strDrop (s : String) (n : Nat) : String := String.mk (s.data.drop n)

/-- The raw `to` field of a rule object: a single string or an array of
strings.  Configurations that omit `to` entirely are outside this embedding
(every raw rule object modelled here carries a `to`). -/
inductive ToField where
  | str (s : String)
  | arr (l : List String)
deriving DecidableEq

/-- Raw rule object (`RuleConfig`): the fields read by `normalizeRule` and the
validator.  `stripPrefix` models the source field named strip_prefix; the
opaque `health_check` field is not modelled. -/
structure RuleConfig where
  type : Option String
  to' : ToField
  stripPrefix : Option String
  status : Option Nat
deriving DecidableEq

/-- JS coercion of a `to` field to a string where the source stores it into a
string-typed slot (redirect and rewrite rules); an array coerces by
`join(",")`. -/
def rcToString : ToField → String
  | .str s => s
  | .arr l => String.intercalate "," l

/-- The target list a proxy rule gets from its `to` field:
`Array.isArray(to) ? to : [to]`. -/
def proxyTargets : ToField → List String
  | .str s => [s]
  | .arr l => l

/-- `ProxyConfig.normalizeRule`: a missing or empty `type` and the literal
"proxy" produce a ProxyRule; "redirect" and "rewrite" copy their fields
(redirect status defaulting to 302); any other `type` yields `none` and the
rule is dropped by `parseHostConfig`. -/
def normalizeRule (rc : RuleConfig) : Option Rule :=
  match rc.type with
  | none => some (Rule.proxy (proxyTargets rc.to'))
  | some t =>
    if t = "" then some (Rule.proxy (proxyTargets rc.to'))
    else if t = "proxy" then some (Rule.proxy (proxyTargets rc.to'))
    else if t = "redirect" then
      some (Rule.redirect (rcToString rc.to') rc.stripPrefix (rc.status.getD 302))
    else if t = "rewrite" then some (Rule.rewrite (rcToString rc.to'))
    else none

/-- A path slot in the raw configuration: a bare URL string or a rule object. -/
inductive PathValue where
  | url (s : String)
  | rule (rc : RuleConfig)
deriving DecidableEq

/-- A host slot in the raw configuration (`HostConfig`): a bare URL string or
path mappings. -/
inductive HostValue where
  | url (s : String)
  | paths (ps : List (String × PathValue))
deriving DecidableEq

/-- A port slot in the raw configuration (`PortConfig`): a bare URL string,
virtual hosts, or path mappings. -/
inductive PortValue where
  | url (s : String)
  | hosts (hs : List (String × HostValue))
  | paths (ps : List (String × PathValue))
deriving DecidableEq

/-- `ProxyConfig.parseHostConfig`: a bare URL becomes a single wildcard proxy
entry; otherwise each path entry is inserted, a string directly as a one-target
proxy rule and an object through `normalizeRule`, invalid rules being
skipped. -/
def parseHostConfig : HostValue → PathMap
  | .url s => [("*", Rule.proxy [s])]
  | .paths ps =>
    ps.foldl (fun m pv =>
      match pv.2 with
      | PathValue.url s => jsSet pv.1 (Rule.proxy [s]) m
      | PathValue.rule rc =>
        match normalizeRule rc with
        | some r => jsSet pv.1 r m
        | none => m) []

/-- `ProxyConfig.getRule`: exact hostname, else the "*" host; within the chosen
path map, exact path, else the "*" path. -/
def getRule (cfg : ConfigMap) (port : Nat) (hostname path : String) : Option Rule :=
  match List.lookup port cfg with
  | none => none
  | some hostMap =>
    match (List.lookup hostname hostMap).orElse (fun _ => List.lookup "*" hostMap) with
    | none => none
    | some pathMap =>
      match List.lookup path pathMap with
      | some r => some r
      | none => List.lookup "*" pathMap

/-- The round-robin counter key built in `getNextTarget`:
the template literal port colon hostname colon path. -/
def rrKey (port : Nat) (hostname path : String) : String :=
  toString port ++ ":" ++ hostname ++ ":" ++ path

/-- `ProxyServer.getNextTarget`: throw on an empty target list, return the sole
target of a singleton list without touching the counters, otherwise read the
counter for the key (default 0), return that target, and store the counter
advanced modulo the target count.  The returned target mirrors JS indexing
(`none` corresponds to an out-of-range read yielding undefined). -/
def getNextTarget (targets : List String) (port : Nat) (hostname path : String)
    (counters : CMap) : Except String (Option String × CMap) :=
  if targets.length = 0 then
    Except.error "No targets available for proxy rule"
  else if targets.length = 1 then
    Except.ok (targets[0]?, counters)
  else
    Except.ok (targets[(List.lookup (rrKey port hostname path) counters).getD 0]?,
      jsSet (rrKey port hostname path)
        (((List.lookup (rrKey port hostname path) counters).getD 0 + 1) % targets.length)
        counters)

/-- Client-visible effect of dispatching one request. -/
inductive Outcome where
  | notFound
  | forward (target : Option String) (path : String)
  | redirectResp (status : Nat) (location : String) (body : String)
  | raised (msg : String)
deriving DecidableEq

/-- `ProxyServer.handleProxy`: select a target with `getNextTarget` (keyed by
the `path` argument) and forward the upstream request with the URL `req.url`
(the `reqUrl` argument). -/
def handleProxy (targets : List String) (port : Nat) (hostname path reqUrl : String)
    (c : CMap) : Outcome × CMap :=
  match getNextTarget targets port hostname path c with
  | .error msg => (Outcome.raised msg, c)
  | .ok (t, c') => (Outcome.forward t reqUrl, c')

/-- `ProxyServer.handleRedirect`: when strip_prefix is truthy (non-empty) and
the request URL starts with it, the Location is `rule.to` plus the remainder of
the URL; otherwise `rule.to` verbatim.  The response carries `rule.status` and
an empty body. -/
def handleRedirect (to' : String) (stripPrefix : Option String) (status : Nat)
    (reqUrl : String) : Outcome :=
  match stripPrefix with
  | some p =>
    if p ≠ "" ∧ strStartsWith reqUrl p = true then
      Outcome.redirectResp status (to' ++ strDrop reqUrl p.length) ""
    else
      Outcome.redirectResp status to' ""
  | none => Outcome.redirectResp status to' ""

/-- The scan in the else-branch of `handleRewrite`: the first PROXY rule of the
path map, in insertion order. -/
def findFirstProxy : PathMap → Option (List String)
  | [] => none
  | (_, Rule.proxy ts) :: _ => some ts
  | _ :: rest => findFirstProxy rest

/-- The else-branch of `ProxyServer.handleRewrite`: look up the port map, then
the exact host else the "*" host, scan for any proxy rule, and forward its
first target with the REWRITTEN url; 404 when nothing is found.  Counters are
untouched (this path does not call `getNextTarget`). -/
def rewriteFallback (cfg : ConfigMap) (port : Nat) (hostname rewrittenUrl : String)
    (c : CMap) : Outcome × CMap :=
  match List.lookup port cfg with
  | none => (Outcome.notFound, c)
  | some hostMap =>
    match (List.lookup hostname hostMap).orElse (fun _ => List.lookup "*" hostMap) with
    | none => (Outcome.notFound, c)
    | some pathMap =>
      match findFirstProxy pathMap with
      | some targets => (Outcome.forward targets[0]? rewrittenUrl, c)
      | none => (Outcome.notFound, c)

/-- `ProxyServer.handleRewrite`: rewrite the URL to `rule.to + req.url`,
re-resolve; when the re-resolved rule is a ProxyRule, dispatch `handleProxy`
with the rewritten URL as the counter-key path but `req.url` as the forwarded
URL; otherwise run the fallback scan. -/
def handleRewrite (to' : String) (cfg : ConfigMap) (port : Nat) (hostname reqUrl : String)
    (c : CMap) : Outcome × CMap :=
  match getRule cfg port hostname (to' ++ reqUrl) with
  | some (Rule.proxy targets) => handleProxy targets port hostname (to' ++ reqUrl) reqUrl c
  | _ => rewriteFallback cfg port hostname (to' ++ reqUrl) c

/-- Hostname derivation in `ProxyServer.handleRequest`:
`(req.headers.host ?? "*").split(":")[0]`, the prefix of the header value
before the first colon. -/
def hostFromHeader (hostHeader : Option String) : String :=
  String.mk ((hostHeader.getD "*").data.takeWhile (fun c => c != ':'))

/-- `ProxyServer.handleRequest`: derive the hostname from the Host header,
resolve the rule with `getRule`, and dispatch on its variant.  `reqUrl` is
`req.url ?? "/"`.  The unknown-rule-type 500 branch is unreachable because
`Rule` is a closed datatype. -/
def handleRequest (cfg : ConfigMap) (port : Nat) (hostHeader : Option String)
    (reqUrl : String) (c : CMap) : Outcome × CMap :=
  match getRule cfg port (hostFromHeader hostHeader) reqUrl with
  | none => (Outcome.notFound, c)
  | some (Rule.proxy targets) =>
    handleProxy targets port (hostFromHeader hostHeader) reqUrl reqUrl c
  | some (Rule.redirect to' sp status) => (handleRedirect to' sp status reqUrl, c)
  | some (Rule.rewrite to') => handleRewrite to' cfg port (hostFromHeader hostHeader) reqUrl c

/-- Validation error record (`ValidationError`); every record produced by the
functions below has severity error.  The warning-producing checks of the
source (redirect status, shadowing, empty config) are not modelled because the
`valid` flag ignores warnings. -/
structure VError where
  code : String
  message : String
  path : String
deriving DecidableEq

/-- Concatenation of per-entry error lists, in iteration order. -/
def collect {α β : Type} (f : α → List β) : List α → List β
  | [] => []
  | a :: as => f a ++ collect f as

/-- Index-annotated list used for the `to[i]` diagnostic paths. -/
def withIdxFrom {α : Type} (i : Nat) : List α → List (Nat × α)
  | [] => []
  | a :: as => (i, a) :: withIdxFrom (i + 1) as

/-- Numeric value of a digit list. -/
def digitsVal (l : List Char) : Nat :=
  l.foldl (fun acc c => acc * 10 + (c.toNat - 48)) 0

/-- Modelled JS `parseInt(s, 10)`: an optional leading minus sign followed by
the longest run of leading decimal digits; `none` is NaN.  Leading whitespace
and a leading plus sign are not modelled. -/
def jsParseInt (s : String) : Option Int :=
  if strStartsWith s "-" then
    match (strDrop s 1).data.takeWhile Char.isDigit with
    | [] => none
    | ds => some (-(digitsVal ds : Int))
  else
    match s.data.takeWhile Char.isDigit with
    | [] => none
    | ds => some (digitsVal ds : Int)

/-- Errors of `ConfigValidator.validatePorts` for one top-level key. -/
def portErr (portStr : String) : List VError :=
  match jsParseInt portStr with
  | none => [VError.mk "INVALID_PORT" ("Port must be a number, got: " ++ portStr) portStr]
  | some p =>
    if p < 1 ∨ 65535 < p then
      [VError.mk "INVALID_PORT" ("Port must be between 1 and 65535, got: " ++ toString p) portStr]
    else []

/-- `ConfigValidator.validatePorts`. -/
def validatePorts (raw : List (String × PortValue)) : List VError :=
  collect (fun kv => if kv.1 = "__defaults" then [] else portErr kv.1) raw

/-- Modelled `ConfigValidator.validateTargetUrl`, with the Node WHATWG `new URL` behavior
simplified to the shapes relevant here: the URL must have the form
scheme`://`rest; the protocol must be http or https; the hostname is the part
of rest before the first of `/`, `:`, `?`, `#` and must be non-empty. -/
def validateTargetUrl (urlString path : String) : Option VError :=
  match urlString.splitOn "://" with
  | [scheme, rest] =>
    if scheme ≠ "http" ∧ scheme ≠ "https" then
      some (VError.mk "INVALID_PROTOCOL"
        ("URL must use http:// or https:// protocol, got: " ++ scheme ++ ":") path)
    else if rest.data.takeWhile (fun c => !(c == '/' || c == ':' || c == '?' || c == '#')) = [] then
      some (VError.mk "MISSING_HOSTNAME" "URL must have a hostname" path)
    else none
  | _ => some (VError.mk "INVALID_URL" ("Invalid URL format: " ++ urlString) path)

/-- `ConfigValidator.validateRuleUrls`: empty strings are skipped (handled by
the required-fields validation), redirect rules may use relative URLs, rewrite
rules are exempt from URL validation altogether, and every element of an array
`to` is checked. -/
def validateRuleUrls (rule : PathValue) (path : String) : List VError :=
  match rule with
  | .url s => if s = "" then [] else (validateTargetUrl s path).toList
  | .rule rc =>
    match rc.to' with
    | .str t =>
      if t = "" then []
      else if rc.type = some "redirect" ∧ strStartsWith t "http://" = false ∧
          strStartsWith t "https://" = false then []
      else if rc.type = some "rewrite" then []
      else (validateTargetUrl t (path ++ ".to")).toList
    | .arr l =>
      if l = [] then []
      else collect (fun iv => (validateTargetUrl iv.2 (path ++ ".to[" ++ toString iv.1 ++ "]")).toList)
        (withIdxFrom 0 l)

/-- `ConfigValidator.validateUrls`. -/
def validateUrls (raw : List (String × PortValue)) : List VError :=
  collect (fun kv =>
    if kv.1 = "__defaults" then [] else
    match kv.2 with
    | PortValue.url s => (validateTargetUrl s kv.1).toList
    | PortValue.hosts hs =>
      collect (fun hkv =>
        match hkv.2 with
        | HostValue.url s => (validateTargetUrl s (kv.1 ++ ".hosts." ++ hkv.1)).toList
        | HostValue.paths ps =>
          collect (fun pkv => validateRuleUrls pkv.2 (kv.1 ++ ".hosts." ++ hkv.1 ++ "." ++ pkv.1)) ps) hs
    | PortValue.paths ps =>
      collect (fun pkv =>
        if pkv.1 = "tls" then [] else validateRuleUrls pkv.2 (kv.1 ++ "." ++ pkv.1)) ps) raw

/-- Error of `ConfigValidator.validateRuleTypes` for one rule object: a `type`
field present but outside proxy, redirect, rewrite. -/
def ruleTypeErr (rc : RuleConfig) (path : String) : List VError :=
  match rc.type with
  | some t =>
    if t = "proxy" ∨ t = "redirect" ∨ t = "rewrite" then []
    else [VError.mk "INVALID_RULE_TYPE"
      ("Invalid rule type: " ++ t ++ ". Must be one of: proxy, redirect, rewrite")
      (path ++ ".type")]
  | none => []

/-- `ConfigValidator.validateRuleTypes`. -/
def validateRuleTypes (raw : List (String × PortValue)) : List VError :=
  collect (fun kv =>
    if kv.1 = "__defaults" then [] else
    match kv.2 with
    | PortValue.url _ => []
    | PortValue.hosts hs =>
      collect (fun hkv =>
        match hkv.2 with
        | HostValue.url _ => []
        | HostValue.paths ps =>
          collect (fun pkv =>
            match pkv.2 with
            | PathValue.rule rc => ruleTypeErr rc (kv.1 ++ ".hosts." ++ hkv.1 ++ "." ++ pkv.1)
            | PathValue.url _ => []) ps) hs
    | PortValue.paths ps =>
      collect (fun pkv =>
        if pkv.1 = "tls" then [] else
        match pkv.2 with
        | PathValue.rule rc => ruleTypeErr rc (kv.1 ++ "." ++ pkv.1)
        | PathValue.url _ => []) ps) raw

/-- Error of `ConfigValidator.validateRuleRequiredFields` for one slot: the
EMPTY_TARGET check for an empty-string or empty-array `to`.  The
MISSING_REQUIRED_FIELD branch for an absent `to` is outside this embedding,
in which every rule object carries a `to`. -/
def requiredFieldErr (rule : PathValue) (path : String) : List VError :=
  match rule with
  | .url _ => []
  | .rule rc =>
    match rc.to' with
    | .str "" => [VError.mk "EMPTY_TARGET" "Rule \"to\" field cannot be empty" (path ++ ".to")]
    | .arr [] => [VError.mk "EMPTY_TARGET" "Rule \"to\" field cannot be empty" (path ++ ".to")]
    | _ => []

/-- `ConfigValidator.validateRequiredFields`. -/
def validateRequiredFields (raw : List (String × PortValue)) : List VError :=
  collect (fun kv =>
    if kv.1 = "__defaults" then [] else
    match kv.2 with
    | PortValue.url _ => []
    | PortValue.hosts hs =>
      collect (fun hkv =>
        match hkv.2 with
        | HostValue.url _ => []
        | HostValue.paths ps =>
          collect (fun pkv => requiredFieldErr pkv.2 (kv.1 ++ ".hosts." ++ hkv.1 ++ "." ++ pkv.1)) ps) hs
    | PortValue.paths ps =>
      collect (fun pkv =>
        if pkv.1 = "tls" then [] else requiredFieldErr pkv.2 (kv.1 ++ "." ++ pkv.1)) ps) raw

/-- The error list assembled by `ConfigValidator.validate` over an
already-parsed document (the JSON-syntax step is prior to this embedding, and
the final CONFIG_LOAD_FAILED step cannot fire because the embedded loader is a
total function). -/
def validateErrors (raw : List (String × PortValue)) : List VError :=
  validatePorts raw ++ validateUrls raw ++ validateRuleTypes raw ++ validateRequiredFields raw

/-- The `valid` flag of `ConfigValidator.validate`: no errors. -/
def validateValid (raw : List (String × PortValue)) : Bool :=
  (validateErrors raw).isEmpty

/-- Counter state after n calls of `getNextTarget` for one fixed route,
starting from an empty counter map (a throwing call leaves the state
unchanged). -/
def rrState (targets : List String) (port : Nat) (host path : String) : Nat → CMap
  | 0 => []
  | n + 1 =>
    match getNextTarget targets port host path (rrState targets port host path n) with
    | .ok (_, c') => c'
    | .error _ => rrState targets port host path n

instance {ε α : Type} [DecidableEq ε] [DecidableEq α] : DecidableEq (Except ε α) :=
  fun a b =>
    match a, b with
    | Except.error e, Except.error f =>
      if h : e = f then Decidable.isTrue (by rw [h]) else
        Decidable.isFalse (by intro hh; cases hh; exact h rfl)
    | Except.ok x, Except.ok y =>
      if h : x = y then Decidable.isTrue (by rw [h]) else
        Decidable.isFalse (by intro hh; cases hh; exact h rfl)
    | Except.error _, Except.ok _ => Decidable.isFalse (by intro h; cases h)
    | Except.ok _, Except.error _ => Decidable.isFalse (by intro h; cases h)

/-- Looking up the key just stored by `jsSet` yields the stored value. -/
theorem jsSet_lookup_self {α : Type} (k : String) (v : α) (m : List (String × α)) :
    List.lookup k (jsSet k v m) = some v := by
  induction m with
  | nil => simp [jsSet, List.lookup]
  | cons kv rest ih =>
    cases kv with
    | mk k0 v0 =>
      simp only [jsSet]
      by_cases h : k0 = k
      · rw [if_pos h]
        simp [List.lookup]
      · rw [if_neg h]
        simp only [List.lookup,
          show (k == k0) = false from beq_eq_false_iff_ne.mpr (fun hh => h hh.symm)]
        exact ih

/-- `jsSet` does not disturb the entry at any other key. -/
theorem jsSet_lookup_other {α : Type} (k k' : String) (v : α) (m : List (String × α))
    (h : k' ≠ k) : List.lookup k' (jsSet k v m) = List.lookup k' m := by
  induction m with
  | nil => simp [jsSet, List.lookup, beq_eq_false_iff_ne.mpr h]
  | cons kv rest ih =>
    by_cases hk : kv.1 = k
    · cases kv with
      | mk k0 v0 =>
        simp only [jsSet] at *
        rw [if_pos hk]
        simp only [List.lookup]
        rw [show (k' == k) = false from beq_eq_false_iff_ne.mpr h,
          show (k' == k0) = false from beq_eq_false_iff_ne.mpr (hk ▸ h)]
    · cases kv with
      | mk k0 v0 =>
        simp only [jsSet] at *
        rw [if_neg hk]
        by_cases he : k' = k0
        · simp [List.lookup, he]
        · simp only [List.lookup, show (k' == k0) = false from beq_eq_false_iff_ne.mpr he]
          exact ih

/-- A list is a JS prefix of itself. -/
theorem listPrefix_self (l : List Char) : listPrefix l l = true := by
  induction l with
  | nil => rfl
  | cons a as ih => simp [listPrefix, ih]

/-- `strStartsWith` is reflexive, as JS `s.startsWith(s)` is true. -/
theorem strStartsWith_self (s : String) : strStartsWith s s = true :=
  listPrefix_self s.data

/-- Dropping the whole string leaves the empty string. -/
theorem strDrop_length (s : String) : strDrop s s.length = "" := by
  cases s with
  | mk l => show String.mk (l.drop l.length) = "" ; rw [List.drop_length]

/-- Appending the empty string is the identity. -/
theorem str_append_empty (s : String) : s ++ "" = s := by
  cases s with
  | mk l => show String.mk (l ++ []) = String.mk l ; rw [List.append_nil]

/-- takeWhile of a concatenation whose left part satisfies the predicate and
whose right part starts with a failing character. -/
theorem takeWhile_append_stop (p : Char → Bool) (l1 l2 : List Char)
    (h : ∀ a ∈ l1, p a = true) (c : Char) (hc : p c = false) :
    (l1 ++ c :: l2).takeWhile p = l1 := by
  induction l1 with
  | nil => simp [List.takeWhile, hc]
  | cons x xs ih =>
    simp only [List.cons_append, List.takeWhile]
    rw [h x (by simp)]
    simp [ih (fun a ha => h a (by simp [ha]))]

/-- takeWhile keeps a list all of whose elements satisfy the predicate. -/
theorem takeWhile_all (p : Char → Bool) (l : List Char) (h : ∀ a ∈ l, p a = true) :
    l.takeWhile p = l := by
  induction l with
  | nil => rfl
  | cons x xs ih =>
    simp only [List.takeWhile]
    rw [h x (by simp)]
    simp [ih (fun a ha => h a (by simp [ha]))]

/-- An optional-indexing hit is a member of the list. -/
theorem mem_of_getElemOpt {α : Type} (l : List α) (i : Nat) (a : α)
    (h : l[i]? = some a) : a ∈ l := by
  induction l generalizing i with
  | nil => simp at h
  | cons x xs ih =>
    cases i with
    | zero => simp at h; simp [h]
    | succ j => simp at h; exact List.mem_cons_of_mem _ (ih _ h)

/-- Unfolding of `getNextTarget` in the genuine round-robin case of two or
more targets. -/
theorem getNextTarget_step (targets : List String) (port : Nat) (host path : String)
    (c : CMap) (h2 : 2 ≤ targets.length) :
    getNextTarget targets port host path c =
      Except.ok (targets[(List.lookup (rrKey port host path) c).getD 0]?,
        jsSet (rrKey port host path)
          (((List.lookup (rrKey port host path) c).getD 0 + 1) % targets.length) c) := by
  have h0 : ¬ targets.length = 0 := by omega
  have h1 : ¬ targets.length = 1 := by omega
  simp [getNextTarget, h0, h1]

/-- `getNextTarget` only ever writes the counter at its own key. -/
theorem getNextTarget_frame (targets : List String) (port : Nat) (host path : String)
    (c : CMap) (k : String) (hk : k ≠ rrKey port host path)
    (t : Option String) (c' : CMap)
    (h : getNextTarget targets port host path c = Except.ok (t, c')) :
    List.lookup k c' = List.lookup k c := by
  by_cases h0 : targets.length = 0
  · simp [getNextTarget, h0] at h
  · by_cases h1 : targets.length = 1
    · simp [getNextTarget, h0, h1] at h
      rw [← h.2]
    · rw [getNextTarget_step targets port host path c (by omega)] at h
      simp only [Except.ok.injEq, Prod.mk.injEq] at h
      rw [← h.2]
      exact jsSet_lookup_other _ _ _ _ hk

/-- `handleProxy` forwards the upstream request with its `reqUrl` argument
(`req.url` in the source) whenever it forwards at all. -/
theorem handleProxy_forward_path (targets : List String) (port : Nat)
    (host path reqUrl : String) (c : CMap) (t : Option String) (p : String) (c' : CMap)
    (h : handleProxy targets port host path reqUrl c = (Outcome.forward t p, c')) :
    p = reqUrl := by
  unfold handleProxy at h
  split at h
  · simp at h
  · simp only [Prod.mk.injEq, Outcome.forward.injEq] at h
    exact h.1.2.symm

/-- The rewrite fallback scan forwards with the rewritten URL whenever it
forwards at all. -/
theorem rewriteFallback_forward_path (cfg : ConfigMap) (port : Nat)
    (hostname u : String) (c : CMap) (t : Option String) (p : String) (c' : CMap)
    (h : rewriteFallback cfg port hostname u c = (Outcome.forward t p, c')) :
    p = u := by
  unfold rewriteFallback at h
  split at h
  · simp at h
  · split at h
    · simp at h
    · split at h
      · simp only [Prod.mk.injEq, Outcome.forward.injEq] at h
        exact h.1.2.symm
      · simp at h

/-- Advancing a cursor commutes with taking the value modulo the period. -/
theorem mod_succ_eq (n k : Nat) (hk : 2 ≤ k) : (n % k + 1) % k = (n + 1) % k := by
  conv_rhs => rw [Nat.add_mod]
  rw [Nat.mod_eq_of_lt (by omega : 1 < k)]

/-- After n calls for a fresh route with at least two targets, the stored
cursor (read with default 0) is n modulo the target count. -/
theorem rrState_cursor (targets : List String) (port : Nat) (host path : String)
    (h2 : 2 ≤ targets.length) (n : Nat) :
    (List.lookup (rrKey port host path) (rrState targets port host path n)).getD 0
      = n % targets.length := by
  induction n with
  | zero => simp [rrState, List.lookup]
  | succ n ih =>
    have hs : rrState targets port host path (n + 1)
        = jsSet (rrKey port host path) ((n % targets.length + 1) % targets.length)
            (rrState targets port host path n) := by
      simp only [rrState]
      rw [getNextTarget_step targets port host path _ h2, ih]
    rw [hs, jsSet_lookup_self]
    simp [mod_succ_eq n targets.length h2]

/-- Claim C9: for a proxy rule with exactly one target, `getNextTarget` returns that
sole target (index 0) and returns the round-robin counter map unchanged: no
entry is created, read into a new slot, or advanced. -/
theorem single_target_no_cursor (t : String) (port : Nat) (host path : String) (c : CMap) :
    getNextTarget [t] port host path c = Except.ok (some t, c) := by
  simp [getNextTarget]

/-- Claim C7 (amended): the Location of a redirect is `rule.to` plus the
remainder of the URL after the strip prefix when the prefix is set to a
NON-EMPTY string (truthy) and the URL starts with it, and `rule.to` verbatim
otherwise — in particular when the prefix is the empty string; when the strip
prefix equals the full URL the Location is exactly `rule.to`; the response
carries `rule.status` and an empty body. -/
theorem redirect_location_contract (to' : String) (sp : Option String) (status : Nat)
    (reqUrl : String) :
    (∀ p, sp = some p → p ≠ "" → strStartsWith reqUrl p = true →
      handleRedirect to' sp status reqUrl
        = Outcome.redirectResp status (to' ++ strDrop reqUrl p.length) "")
    ∧ (sp = none → handleRedirect to' sp status reqUrl = Outcome.redirectResp status to' "")
    ∧ (∀ p, sp = some p → strStartsWith reqUrl p = false →
      handleRedirect to' sp status reqUrl = Outcome.redirectResp status to' "")
    ∧ (sp = some reqUrl →
      handleRedirect to' sp status reqUrl = Outcome.redirectResp status to' "") := by
  refine ⟨?_, ?_, ?_, ?_⟩
  · intro p hsp hne hstart
    subst hsp
    simp [handleRedirect, hne, hstart]
  · intro h
    subst h
    rfl
  · intro p hsp hf
    subst hsp
    simp [handleRedirect, hf]
  · intro h
    subst h
    by_cases hr : reqUrl = ""
    · subst hr
      simp [handleRedirect]
    · simp [handleRedirect, hr, strStartsWith_self, strDrop_length, str_append_empty]

/-- Witness for C7 at the spec's scenario D: redirect to the CDN with the
static prefix stripped. -/
theorem redirect_location_contract_witness :
    handleRedirect "https://cdn.example.com" (some "/static") 301 "/static/img/logo.png"
      = Outcome.redirectResp 301 "https://cdn.example.com/img/logo.png" "" := by
  have h := (redirect_location_contract "https://cdn.example.com" (some "/static") 301
    "/static/img/logo.png").1 "/static" rfl (by decide) (by decide)
  exact h.trans (by decide)

/-- Counterexample to C7 as stated: with strip_prefix set to the empty string
(which every URL starts with) the claim demands `rule.to` plus the whole URL,
but the truthiness guard of the source skips stripping and the Location is
`rule.to` verbatim. -/
theorem redirect_empty_prefix_counterexample :
    strStartsWith "/x" "" = true
    ∧ handleRedirect "https://t" (some "") 301 "/x" = Outcome.redirectResp 301 "https://t" ""
    ∧ handleRedirect "https://t" (some "") 301 "/x"
      ≠ Outcome.redirectResp 301 ("https://t" ++ strDrop "/x" ("" : String).length) "" := by
  exact ⟨by decide, by decide, by decide⟩

/-- Claim C3: the router prefers exact keys to the "*" sentinel at both levels: when
an exact host entry exists, resolution is determined by the path map of that host
alone (the wildcard host is never consulted), with the exact path preferred to
the "*" path; when the exact host is absent the path map of the "*" host is used
with the same path precedence. -/
theorem resolve_exact_beats_wildcard (cfg : ConfigMap) (port : Nat) (host path : String)
    (hm : HostMap) (hport : List.lookup port cfg = some hm) :
    (∀ pm, List.lookup host hm = some pm →
      (∀ r, List.lookup path pm = some r → getRule cfg port host path = some r)
      ∧ (List.lookup path pm = none → getRule cfg port host path = List.lookup "*" pm))
    ∧ (List.lookup host hm = none →
      ∀ pm, List.lookup "*" hm = some pm →
        (∀ r, List.lookup path pm = some r → getRule cfg port host path = some r)
        ∧ (List.lookup path pm = none → getRule cfg port host path = List.lookup "*" pm)) := by
  constructor
  · intro pm hpm
    constructor
    · intro r hr
      simp [getRule, hport, hpm, Option.orElse, hr]
    · intro hnone
      simp [getRule, hport, hpm, Option.orElse, hnone]
  · intro hhost pm hpm
    constructor
    · intro r hr
      simp [getRule, hport, hhost, hpm, Option.orElse, hr]
    · intro hnone
      simp [getRule, hport, hhost, hpm, Option.orElse, hnone]

/-- Routing table with exact and wildcard entries at both levels, used to
witness the precedence theorem. -/
def cfgC3 : ConfigMap :=
  [(80, [("h", [("/api", Rule.proxy ["http://api"]), ("*", Rule.proxy ["http://web"])]),
         ("*", [("*", Rule.proxy ["http://wild"])])])]

/-- Witness for C3: with both an exact and a wildcard entry present at each
level, the exact host and the exact path win. -/
theorem resolve_exact_beats_wildcard_witness :
    getRule cfgC3 80 "h" "/api" = some (Rule.proxy ["http://api"]) := by
  exact ((resolve_exact_beats_wildcard cfgC3 80 "h" "/api"
      [("h", [("/api", Rule.proxy ["http://api"]), ("*", Rule.proxy ["http://web"])]),
       ("*", [("*", Rule.proxy ["http://wild"])])] (by decide)).1
    [("/api", Rule.proxy ["http://api"]), ("*", Rule.proxy ["http://web"])]
    (by decide)).1 (Rule.proxy ["http://api"]) (by decide)

/-- Claim C5: for a proxy rule with at least two targets and a fresh route, the n-th
sequential `getNextTarget` call (counting from 0) returns the target at index
n modulo the target count and stores the cursor n+1 modulo the target count. -/
theorem round_robin_cycles (targets : List String) (port : Nat) (host path : String)
    (h2 : 2 ≤ targets.length) (n : Nat) :
    getNextTarget targets port host path (rrState targets port host path n)
      = Except.ok (targets[n % targets.length]?, rrState targets port host path (n + 1))
    ∧ List.lookup (rrKey port host path) (rrState targets port host path (n + 1))
      = some ((n + 1) % targets.length) := by
  have hcur := rrState_cursor targets port host path h2 n
  have hstep := getNextTarget_step targets port host path
    (rrState targets port host path n) h2
  rw [hcur] at hstep
  have hs : rrState targets port host path (n + 1)
      = jsSet (rrKey port host path) ((n % targets.length + 1) % targets.length)
          (rrState targets port host path n) := by
    simp only [rrState]
    rw [hstep]
  constructor
  · rw [hstep, hs]
  · rw [hs, jsSet_lookup_self, mod_succ_eq n targets.length h2]

/-- Witness for C5 with three targets and the fifth call (n = 4): the call
returns the target at index 1 and stores cursor 2. -/
theorem round_robin_cycles_witness :
    getNextTarget ["http://a", "http://b", "http://c"] 80 "h" "/p"
        (rrState ["http://a", "http://b", "http://c"] 80 "h" "/p" 4)
      = Except.ok (some "http://b", rrState ["http://a", "http://b", "http://c"] 80 "h" "/p" 5)
    ∧ List.lookup (rrKey 80 "h" "/p") (rrState ["http://a", "http://b", "http://c"] 80 "h" "/p" 5)
      = some 2 := by
  have h := round_robin_cycles ["http://a", "http://b", "http://c"] 80 "h" "/p" (by decide) 4
  exact ⟨h.1.trans (by decide), h.2.trans (by decide)⟩

/-- Configuration whose sole rule is a proxy rule with an empty target list,
as the loader builds it from a rule object with an empty-array `to`. -/
def cfgC10 : ConfigMap :=
  [(80, [("h", parseHostConfig (HostValue.paths
    [("/api", PathValue.rule (RuleConfig.mk (some "proxy") (ToField.arr []) none none))]))])]

/-- Claim C10: for a non-empty target list `getNextTarget` never throws and any
defined target it returns is an element of the list; the throwing branch fires
exactly for an empty target list, which the loader can produce from an
empty-array `to`; and on such a rule the dispatcher propagates the thrown
error rather than answering with an HTTP error response. -/
theorem proxy_targets_nonempty_safe :
    (∀ (targets : List String) (port : Nat) (host path : String) (c : CMap),
      targets ≠ [] → ∀ e, getNextTarget targets port host path c ≠ Except.error e)
    ∧ (∀ (targets : List String) (port : Nat) (host path : String) (c : CMap)
        (t : String) (c' : CMap),
      getNextTarget targets port host path c = Except.ok (some t, c') → t ∈ targets)
    ∧ (∀ (port : Nat) (host path : String) (c : CMap),
      getNextTarget [] port host path c = Except.error "No targets available for proxy rule")
    ∧ (normalizeRule (RuleConfig.mk (some "proxy") (ToField.arr []) none none)
        = some (Rule.proxy []))
    ∧ (∀ (cfg : ConfigMap) (port : Nat) (hh : Option String) (reqUrl : String) (c : CMap),
      getRule cfg port (hostFromHeader hh) reqUrl = some (Rule.proxy []) →
      handleRequest cfg port hh reqUrl c
        = (Outcome.raised "No targets available for proxy rule", c)) := by
  refine ⟨?_, ?_, ?_, by decide, ?_⟩
  · intro targets port host path c hne e
    have h0 : ¬ targets.length = 0 := by
      simpa [List.length_eq_zero] using hne
    simp only [getNextTarget, if_neg h0]
    split
    · simp
    · simp
  · intro targets port host path c t c' h
    simp only [getNextTarget] at h
    split at h
    · cases h
    · split at h
      · simp only [Except.ok.injEq, Prod.mk.injEq] at h
        exact mem_of_getElemOpt _ _ _ h.1
      · simp only [Except.ok.injEq, Prod.mk.injEq] at h
        exact mem_of_getElemOpt _ _ _ h.1
  · intro port host path c
    rfl
  · intro cfg port hh reqUrl c h
    simp [handleRequest, h, handleProxy, getNextTarget]

/-- Witness for C10: a two-target rule neither throws nor escapes its target
list, and the dispatcher run on the empty-target configuration raises. -/
theorem proxy_targets_nonempty_safe_witness :
    getNextTarget ["http://a", "http://b"] 80 "h" "/" [] ≠
      Except.error "No targets available for proxy rule"
    ∧ ("http://a" ∈ ["http://a", "http://b"])
    ∧ handleRequest cfgC10 80 (some "h") "/api" []
        = (Outcome.raised "No targets available for proxy rule", []) := by
  refine ⟨?_, ?_, ?_⟩
  · exact proxy_targets_nonempty_safe.1 ["http://a", "http://b"] 80 "h" "/" [] (by decide) _
  · exact proxy_targets_nonempty_safe.2.1 ["http://a", "http://b"] 80 "h" "/" []
      "http://a" [(rrKey 80 "h" "/", 1)] (by decide)
  · exact proxy_targets_nonempty_safe.2.2.2.2 cfgC10 80 (some "h") "/api" [] (by decide)

/-- Whether an optional resolution result is a ProxyRule, as tested by the
condition of `handleRewrite`. -/
def optRuleIsProxy : Option Rule → Bool
  | some (Rule.proxy _) => true
  | _ => false

/-- Claim C1: under a rewrite rule, the dispatcher re-resolves the rewritten URL
`rule.to + U`; whenever the re-resolved rule is a ProxyRule (matched exactly
or via the "*" path wildcard) any upstream forward carries the original URL
`U`, and whenever the dispatcher instead falls back to scanning the host map
any upstream forward carries the rewritten URL. -/
theorem rewrite_forwarded_url (cfg : ConfigMap) (port : Nat) (host reqUrl to' : String)
    (c : CMap) :
    (optRuleIsProxy (getRule cfg port host (to' ++ reqUrl)) = true →
      ∀ t p c', handleRewrite to' cfg port host reqUrl c = (Outcome.forward t p, c') →
        p = reqUrl)
    ∧ (optRuleIsProxy (getRule cfg port host (to' ++ reqUrl)) = false →
      ∀ t p c', handleRewrite to' cfg port host reqUrl c = (Outcome.forward t p, c') →
        p = to' ++ reqUrl) := by
  constructor
  · intro hp t p c' h
    cases hg : getRule cfg port host (to' ++ reqUrl) with
    | none => rw [hg] at hp; simp [optRuleIsProxy] at hp
    | some r =>
      cases r with
      | proxy ts =>
        simp only [handleRewrite, hg] at h
        exact handleProxy_forward_path ts port host (to' ++ reqUrl) reqUrl c t p c' h
      | redirect a b d => rw [hg] at hp; simp [optRuleIsProxy] at hp
      | rewrite a => rw [hg] at hp; simp [optRuleIsProxy] at hp
  · intro hnp t p c' h
    cases hg : getRule cfg port host (to' ++ reqUrl) with
    | none =>
      simp only [handleRewrite, hg] at h
      exact rewriteFallback_forward_path cfg port host (to' ++ reqUrl) c t p c' h
    | some r =>
      cases r with
      | proxy ts => rw [hg] at hnp; simp [optRuleIsProxy] at hnp
      | redirect a b d =>
        simp only [handleRewrite, hg] at h
        exact rewriteFallback_forward_path cfg port host (to' ++ reqUrl) c t p c' h
      | rewrite a =>
        simp only [handleRewrite, hg] at h
        exact rewriteFallback_forward_path cfg port host (to' ++ reqUrl) c t p c' h

/-- Routing table for the rewrite witness: the rewritten URL matches a proxy
rule exactly, and a second table exercises the fallback scan. -/
def cfgC1 : ConfigMap :=
  [(80, [("*", [("/v1/x", Rule.proxy ["http://a"]), ("*", Rule.rewrite "/v1")])])]

/-- Witness for C1: on the table whose rewritten URL resolves to a proxy rule,
the forwarded URL is the original one; on a table where only the fallback scan
finds a proxy rule, the forwarded URL is the rewritten one. -/
theorem rewrite_forwarded_url_witness :
    optRuleIsProxy (getRule cfgC1 80 "*" ("/v1" ++ "/x")) = true
    ∧ handleRewrite "/v1" cfgC1 80 "*" "/x" [] = (Outcome.forward (some "http://a") "/x", [])
    ∧ ("/x" : String) = "/x" := by
  refine ⟨by decide, by decide, ?_⟩
  exact (rewrite_forwarded_url cfgC1 80 "*" "/x" "/v1" []).1 (by decide)
    (some "http://a") "/x" [] (by decide)

/-- Claim C2 (amended): the round-robin cursor map is keyed by the string
port:hostname:path built from the LITERAL Host-derived hostname of the request and
literal URL; a proxy dispatch touches no cursor entry other than that literal
key. -/
theorem cursor_key_uses_literal_request (cfg : ConfigMap) (port : Nat)
    (hh : Option String) (reqUrl : String) (c : CMap) (targets : List String)
    (h : getRule cfg port (hostFromHeader hh) reqUrl = some (Rule.proxy targets))
    (k : String) (hk : k ≠ rrKey port (hostFromHeader hh) reqUrl) :
    List.lookup k (handleRequest cfg port hh reqUrl c).2 = List.lookup k c := by
  simp only [handleRequest, h]
  unfold handleProxy
  split
  · rfl
  · next t c' heq =>
    exact getNextTarget_frame targets port (hostFromHeader hh) reqUrl c k hk t c' heq

/-- Two-target wildcard route used to exhibit the literal cursor keying. -/
def cfgC2 : ConfigMap := [(80, [("*", [("*", Rule.proxy ["http://a", "http://b"])])])]

/-- Counterexample to C2 as stated: two requests whose different literal paths
both match the same "*" path key do NOT advance the same cursor.  Were the
cursor keyed by the resolved keys, the second request would get the second
target; instead each literal path gets its own fresh cursor, both requests are
answered by the first target, and the counter map ends with one entry per
literal path. -/
theorem cursor_resolved_key_counterexample :
    (handleRequest cfgC2 80 none "/x" []).1 = Outcome.forward (some "http://a") "/x"
    ∧ handleRequest cfgC2 80 none "/y" (handleRequest cfgC2 80 none "/x" []).2
      = (Outcome.forward (some "http://a") "/y", [("80:*:/x", 1), ("80:*:/y", 1)]) := by
  constructor
  · decide
  · decide

/-- Witness for the amended C2: a proxy dispatch for literal path /x leaves
the cursor slot of the other literal key 80:*:/y untouched. -/
theorem cursor_key_uses_literal_request_witness :
    List.lookup "80:*:/y" (handleRequest cfgC2 80 none "/x" []).2
      = List.lookup "80:*:/y" ([] : CMap) := by
  exact cursor_key_uses_literal_request cfgC2 80 none "/x" [] ["http://a", "http://b"]
    (by decide) "80:*:/y" (by decide)

/-- Claim C6 (amended): the routing host is the Host header value up to (excluding)
the first colon, preserved verbatim (no case folding), and the sentinel "*"
when the header is absent. -/
theorem routing_host_derivation :
    hostFromHeader none = "*"
    ∧ (∀ s t : String, (∀ c ∈ s.data, c ≠ ':') →
        hostFromHeader (some (s ++ ":" ++ t)) = s)
    ∧ (∀ s : String, (∀ c ∈ s.data, c ≠ ':') → hostFromHeader (some s) = s) := by
  refine ⟨by decide, ?_, ?_⟩
  · intro s t hs
    show String.mk ((s ++ ":" ++ t).data.takeWhile (fun c => c != ':')) = s
    rw [String.data_append, String.data_append,
      show (":" : String).data = [':'] from rfl, List.append_assoc, List.singleton_append,
      takeWhile_append_stop _ s.data t.data
        (fun a ha => by simpa using hs a ha) ':' (by decide)]
  · intro s hs
    show String.mk (s.data.takeWhile (fun c => c != ':')) = s
    rw [takeWhile_all _ s.data (fun a ha => by simpa using hs a ha)]

/-- Witness for the amended C6: a Host header with a port keeps the exact
hostname spelling with the port stripped. -/
theorem routing_host_derivation_witness :
    hostFromHeader (some "MyShop.local:80") = "MyShop.local" := by
  have h := routing_host_derivation.2.1 "MyShop.local" "80" (by decide)
  have e : ("MyShop.local" ++ ":" ++ "80" : String) = "MyShop.local:80" := by decide
  rw [e] at h
  exact h

/-- Routing table with one exact lowercase host, used to show case matters. -/
def cfgC6 : ConfigMap := [(80, [("example.com", [("*", Rule.proxy ["http://a"])])])]

/-- Counterexample to C6 as stated: the dispatcher does NOT lowercase the Host
header.  A request whose Host differs from the configured host only in letter
case finds no rule (404), while the exact-case request is proxied, so the
derived routing host is not the lowercased header value. -/
theorem host_not_lowercased_counterexample :
    handleRequest cfgC6 80 (some "EXAMPLE.com") "/" [] = (Outcome.notFound, [])
    ∧ handleRequest cfgC6 80 (some "example.com") "/" []
      = (Outcome.forward (some "http://a") "/", []) := by
  constructor
  · decide
  · decide

/-- Claim C4 (amended): the loader omits a rule exactly when its `type` is present,
non-empty, and not one of proxy, redirect, rewrite; a missing or empty `to`
is not checked by `normalizeRule` (the validator reports it separately). -/
theorem normalizeRule_omits_only_unknown_type (rc : RuleConfig) :
    normalizeRule rc = none ↔
      ∃ t, rc.type = some t ∧ t ≠ "" ∧ t ≠ "proxy" ∧ t ≠ "redirect" ∧ t ≠ "rewrite" := by
  cases rc with
  | mk ty tf sp st =>
    cases ty with
    | none => simp [normalizeRule]
    | some t =>
      simp only [normalizeRule]
      split_ifs with h1 h2 h3 h4 <;> simp_all

/-- Routing table the loader builds from a proxy rule whose `to` is the empty
array. -/
def cfgC4 : ConfigMap :=
  [(80, [("h", parseHostConfig (HostValue.paths
    [("/api", PathValue.rule (RuleConfig.mk (some "proxy") (ToField.arr []) none none))]))])]

/-- Counterexample to C4 as stated: a rule with an empty `to` (an invalid rule
in the sense of the claim) is NOT omitted by the loader; `parseHostConfig`
inserts it and `getRule` returns it. -/
theorem empty_to_rule_reaches_resolve :
    parseHostConfig (HostValue.paths
        [("/api", PathValue.rule (RuleConfig.mk (some "proxy") (ToField.arr []) none none))])
      = [("/api", Rule.proxy [])]
    ∧ getRule cfgC4 80 "h" "/api" = some (Rule.proxy []) := by
  exact ⟨by decide, by decide⟩

/-- Claim C8 (amended): the validator performs no path-shape check on the `to`
field of a rewrite rule; `validateRuleUrls` returns no error for any rewrite
rule with a string `to`, whether or not it begins with a slash. -/
theorem validator_skips_rewrite_to_check (t path : String) (sp : Option String)
    (st : Option Nat) :
    validateRuleUrls (PathValue.rule (RuleConfig.mk (some "rewrite") (ToField.str t) sp st))
      path = [] := by
  by_cases h : t = "" <;> simp [validateRuleUrls, h]

/-- Raw document containing a rewrite rule whose `to` does not begin with a
slash. -/
def rawC8 : List (String × PortValue) :=
  [("80", PortValue.paths
    [("/api", PathValue.rule (RuleConfig.mk (some "rewrite") (ToField.str "foo") none none))])]

/-- Counterexample to C8 as stated: a document whose rewrite `to` is "foo"
(no leading slash) produces no validation error at all, so validation
succeeds rather than failing. -/
theorem rewrite_to_validation_counterexample :
    strStartsWith "foo" "/" = false
    ∧ validateErrors rawC8 = []
    ∧ validateValid rawC8 = true := by
  exact ⟨by decide, by decide, by decide⟩

/-- Witness for the amended C4: a rule with an unknown type is omitted, by the
backward direction of the characterization applied at a concrete rule. -/
theorem normalizeRule_omits_only_unknown_type_witness :
    normalizeRule (RuleConfig.mk (some "bogus") (ToField.str "http://a") none none) = none := by
  exact (normalizeRule_omits_only_unknown_type
      (RuleConfig.mk (some "bogus") (ToField.str "http://a") none none)).mpr
    ⟨"bogus", rfl, by decide, by decide, by decide, by decide⟩
